import Mathlib

/-!
Verification of behavioral claims about the remotetools repository: a shallow
embedding, in Lean, of the Go functions that implement the download engine,
the metadata store, the lifecycle orchestrator, the web install handler, the
exec-permission prober and the config loader, together with theorems settling
the claims against those embeddings.

Conventions of the embedding:
* Go machine integers (int, int64) are modelled as Lean Int; none of the
  embedded code paths can overflow at the sizes involved.
* Fallible operations and oracles (HTTP responses, file stats, the POSIX exec
  probe) are passed in explicitly as Option values or Bool flags; the control
  flow over them is translated from the source.
* Filesystem state, where a claim needs it, is a list of file paths (each a
  list of components); the rename / remove-all / remove operations act on
  path prefixes, and are modelled as succeeding whenever the source tolerates
  or ignores their errors (ideal filesystem).
-/

namespace RemoteTools

/-! ### Exec-permission prober (pkg/tools/tools.go, isExecSupported) -/

/-- Oracle for the POSIX probe body of isExecSupported (MkdirAll, write a
test script with mode 0755, execute it, look for "ok" in the output): it is
filesystem- and process-dependent, so it is abstracted as a function from the
directory to the probe verdict. -/
def LinuxProbe := String → Bool

/-- Embedding of isExecSupported (pkg/tools/tools.go lines 138-160).
The empty directory string is rejected first; then any GOOS other than
"linux" returns true; on linux the probe oracle decides. -/
def isExecSupported (goos : String) (probe : LinuxProbe) (dir : String) : Bool :=
  if dir = "" then false
  else if goos ≠ "linux" then true
  else probe dir

/-! ### Config loader (pkg/config/config.go, OsArchSpecificString.UnmarshalJSON) -/

/-- JSON values as decoded by encoding/json into interface-typed Go values. -/
inductive Json where
  | str (s : String)
  | num (n : Int)
  | bool (b : Bool)
  | arr (items : List Json)
  | obj (fields : List (String × Json))
  | null

/-- Go json.Unmarshal of a value into []string: succeeds on a JSON array
whose elements are strings, on JSON null (leaving the slice nil), and - per
the encoding/json contract that unmarshalling a JSON null into a non-pointer
type "has no effect on the value and produces no error" - on null elements,
which leave the zero value "". -/
def asStringArray : Json → Option (List String)
  | Json.null => some []
  | Json.arr items =>
    items.mapM fun j =>
      match j with
      | Json.str s => some s
      | Json.null => some ""
      | _ => none
  | _ => none

/-- Go json.Unmarshal of a value into string (null is a no-op on the zero
value ""). -/
def asString : Json → Option String
  | Json.str s => some s
  | Json.null => some ""
  | _ => none

/-- Go json.Unmarshal of a value into map[string]interface: only objects
decode; null yields the nil map. -/
def asObjectMap : Json → Option (List (String × Json))
  | Json.obj fields => some fields
  | Json.null => some []
  | _ => none

/-- Go map lookup on the decoded object. -/
def lookupField (fields : List (String × Json)) (key : String) : Option Json :=
  (fields.find? fun kv => kv.1 = key).map fun kv => kv.2

/-- parseLeaf from OsArchSpecificString.UnmarshalJSON: a string leaf yields
its singleton (an empty string yields the empty list with nil error); an
array leaf requires every element to be a nonempty string; anything else is
an error. -/
def parseLeaf : Json → Option (List String)
  | Json.str s => if s = "" then some [] else some [s]
  | Json.arr items =>
    items.mapM fun j =>
      match j with
      | Json.str s => if s = "" then none else some s
      | _ => none
  | _ => none

/-- Embedding of OsArchSpecificString.UnmarshalJSON (pkg/config/config.go
lines 68-143): some values on a nil error (the decoded Values, possibly
empty), none when the method returns an error. The three decode attempts
([]string, string, os/arch map) are tried in the source's order, and a value
that fits none of the three shapes reaches the final `return nil`. -/
def unmarshalOsArch (goos goarch : String) (j : Json) : Option (List String) :=
  match asStringArray j with
  | some arr => some arr
  | none =>
    match asString j with
    | some s => some (if s = "" then [] else [s])
    | none =>
      match asObjectMap j with
      | none => some []
      | some fields =>
        match lookupField fields goos with
        | none => some []
        | some Json.null => some []
        | some v =>
          match parseLeaf v with
          | some leafVals => some leafVals
          | none =>
            match v with
            | Json.obj archFields =>
              match lookupField archFields goarch with
              | none => some []
              | some Json.null => some []
              | some v2 =>
                match parseLeaf v2 with
                | some l => some l
                | none => none
            | _ => none

/-- OsArchSpecificString.Primary: the first value, or "" when empty. -/
def primaryOf (values : List String) : String := values.headD ""

/-- LoadConfigFromBytes (pkg/config/config.go lines 154-198) keeps a version
entry only when the decoded downloadUrl has a nonempty primary value;
otherwise the entry is skipped for the current platform with a warning. -/
def entryKept (downloadValues : List String) : Bool := primaryOf downloadValues ≠ ""

/-- The claim's "a string" shape. -/
def isJsonString : Json → Bool
  | Json.str _ => true
  | _ => false

/-- The claim's "an array of strings" shape, read literally: an array all of
whose elements are JSON strings. -/
def isJsonStringArray : Json → Bool
  | Json.arr items => items.all fun j => isJsonString j
  | _ => false

/-- The claim's "an object" shape. -/
def isJsonObject : Json → Bool
  | Json.obj _ => true
  | _ => false

/-! ### Active-task registries and the install handler
(pkg/webui/handlers.go handleInstall; tools active.go markActive) -/

/-- The two in-memory registries in the source: activeInstalls in package
webui (written only by the HTTP install handler) and activeDownloads in
package tools (written by DownloadedTool.Install via markActive, for every
install source). -/
structure ActiveState where
  httpActive : List String
  toolsActive : List String
deriving DecidableEq, Repr

/-- The canonical tool@version key. -/
def installKey (toolName version : String) : String := toolName ++ "@" ++ version

/-- markActive (tools package): records the key in activeDownloads, as done
at the top of DownloadedTool.Install. -/
def markActive (s : ActiveState) (toolName version : String) : ActiveState :=
  { s with toolsActive := installKey toolName version :: s.toolsActive }

/-- Outcome of one handleInstall request: HTTP status, whether a background
install task was started, and the registries afterwards. -/
structure HandlerResult where
  statusCode : Nat
  startedTask : Bool
  state : ActiveState
deriving DecidableEq, Repr

/-- Embedding of handleInstall (pkg/webui/handlers.go lines 405-464), after
method check and body decoding: empty fields give 400; then the handler
consults only the webui-package activeInstalls map; a hit gives 409 with no
task, a miss records the key there and starts the background task with 202. -/
def handleInstall (s : ActiveState) (toolName version : String) : HandlerResult :=
  if toolName = "" ∨ version = "" then ⟨400, false, s⟩
  else
    let key := installKey toolName version
    if s.httpActive.contains key then ⟨409, false, s⟩
    else ⟨202, true, { s with httpActive := key :: s.httpActive }⟩

/-- An install of the key is in progress from some source: either registered
by the HTTP handler or registered programmatically by Install/markActive. -/
def installInProgress (s : ActiveState) (key : String) : Bool :=
  s.httpActive.contains key || s.toolsActive.contains key

/-! ### Metadata store (pkg/tools/downloaded_tool.go, updateMetadataFromProgress
and writeMetadataFile) -/

/-- DownloadProcess record persisted in the per-version sidecar. The zero
value (all defaults) is what Go writes for a completed download. -/
structure DownloadProcess where
  currentDownloadURLIndex : Int := 0
  fileSize : Int := 0
  status : String := ""
  attemptIndex : Int := 0
  totalAttempts : Int := 0
  currentURL : String := ""
  failedURLs : List String := []
  allURLs : List String := []
deriving DecidableEq, Repr

/-- In-memory DownloadProgress event. The Speed field is elided: it is a
float used only for display and appears in no claim. -/
structure DownloadProgress where
  totalBytes : Int := 0
  downloadedBytes : Int := 0
  status : String := ""
  errMsg : Option String := none
  attemptIndex : Int := 0
  totalAttempts : Int := 0
  currentURL : String := ""
  failedURLs : List String := []
  allURLs : List String := []
deriving DecidableEq, Repr

/-- Embedding of updateMetadataFromProgress (pkg/tools/downloaded_tool.go
lines 266-359): given the previous persisted record and a progress event, it
returns the new record and whether it is written to disk, which the source
computes as changed-or-forcePersist. -/
def updateDownloadProcess (prev : DownloadProcess) (dp : DownloadProgress) :
    DownloadProcess × Bool :=
  let pair : DownloadProcess × Bool :=
    if dp.status = "trying" then
      let idx := if dp.attemptIndex - 1 < 0 then 0 else dp.attemptIndex - 1
      let c : DownloadProcess :=
        { currentDownloadURLIndex := idx
          status := dp.status
          attemptIndex := dp.attemptIndex
          totalAttempts := dp.totalAttempts
          currentURL := dp.currentURL
          failedURLs := dp.failedURLs
          allURLs := dp.allURLs }
      let c := if dp.totalBytes > 0 then { c with fileSize := dp.totalBytes } else c
      (c, true)
    else if dp.status = "downloading" then
      let c := prev
      let c :=
        if dp.attemptIndex - 1 ≥ 0 then
          { c with currentDownloadURLIndex := dp.attemptIndex - 1 }
        else c
      let c := if dp.totalBytes > 0 then { c with fileSize := dp.totalBytes } else c
      ({ c with
          status := dp.status
          attemptIndex := dp.attemptIndex
          totalAttempts := dp.totalAttempts
          currentURL := dp.currentURL
          failedURLs := dp.failedURLs
          allURLs := dp.allURLs }, false)
    else if dp.status = "extracting" then
      let c := prev
      let c := if dp.totalBytes > 0 then { c with fileSize := dp.totalBytes } else c
      ({ c with
          status := dp.status
          attemptIndex := dp.attemptIndex
          totalAttempts := dp.totalAttempts
          currentURL := dp.currentURL
          failedURLs := dp.failedURLs
          allURLs := dp.allURLs }, true)
    else if dp.status = "paused" ∨ dp.status = "failed" then
      let c := prev
      let c :=
        if dp.attemptIndex - 1 ≥ 0 then
          { c with currentDownloadURLIndex := dp.attemptIndex - 1 }
        else c
      let c := if dp.totalBytes > 0 then { c with fileSize := dp.totalBytes } else c
      ({ c with
          status := dp.status
          attemptIndex := dp.attemptIndex
          totalAttempts := dp.totalAttempts
          currentURL := dp.currentURL
          failedURLs := dp.failedURLs
          allURLs := dp.allURLs }, true)
    else if dp.status = "completed" then
      ({}, true)
    else if dp.status = "disabled" then
      ({ prev with
          status := dp.status
          attemptIndex := dp.attemptIndex
          totalAttempts := dp.totalAttempts
          currentURL := dp.currentURL
          failedURLs := dp.failedURLs
          allURLs := dp.allURLs }, true)
    else
      ({ prev with
          status := dp.status
          attemptIndex := dp.attemptIndex
          totalAttempts := dp.totalAttempts
          currentURL := dp.currentURL
          failedURLs := dp.failedURLs
          allURLs := dp.allURLs }, false)
  (pair.1, (pair.1 != prev || pair.2))

/-- Disk operations the metadata writer performs. -/
inductive FsOp where
  | writeFile (path : String)
  | rename (src dst : String)
deriving DecidableEq, Repr

/-- writeMetadataFile (pkg/tools/downloaded_tool.go lines 70-89): write the
marshalled record to path.tmp, then rename it onto path. (The MkdirAll of
the parent directory and the JSON marshalling are elided as they carry no
decision.) -/
def writeMetadataFileOps (path : String) : List FsOp :=
  [FsOp.writeFile (path ++ ".tmp"), FsOp.rename (path ++ ".tmp") path]

/-- updateMetadataFromProgress together with its disk effect: when the new
record is persisted it goes through writeMetadataFile. -/
def updateMetadataOps (path : String) (prev : DownloadProcess) (dp : DownloadProgress) :
    DownloadProcess × List FsOp :=
  let r := updateDownloadProcess prev dp
  (r.1, if r.2 then writeMetadataFileOps path else [])

/-! ### Download engine (pkg/tools/downloaded_tool.go): shouldDownload,
performDownload, attemptDownload, downloadTool, and the Install wrapper.

The network and the local file are oracles: an AttemptEnv fixes, for one
mirror attempt, the HEAD result, the URL-basename fallback, the size of the
local temp file, the GET response and the outcome of the copy loop. The
timed "downloading" progress events of the copy loop (emitted at most every
500 ms) are elided: they are display-only and appear in no claim. -/

/-- Result of the HEAD probe (getHeadInfo): the Content-Disposition filename
(possibly "") and the Content-Length (0 when the header is absent). -/
structure HeadInfo where
  fileName : String
  contentLength : Int
deriving DecidableEq, Repr

/-- A GET response: status code and the ContentLength Go reports. -/
structure HttpResp where
  status : Nat
  contentLength : Int
deriving DecidableEq, Repr

/-- Outcome of the io.Copy through the progressReader: success, stopped by
the pause flag (carrying the stat size of the temp file at that moment), or
a streaming error. -/
inductive CopyResult where
  | ok
  | pausedA (statSize : Int)
  | fail (m : String)
deriving DecidableEq, Repr

/-- Errors of the download pipeline: the ErrDownloadPaused sentinel is kept
distinct from every other error, mirroring errors.Is in the source. -/
inductive DlErr where
  | paused
  | msg (m : String)
deriving DecidableEq, Repr

/-- Environment of a single mirror attempt. -/
structure AttemptEnv where
  head : Option HeadInfo
  urlBase : Option String
  existingSize : Int
  get : Option HttpResp
  copy : CopyResult
  extractOK : Bool
deriving DecidableEq, Repr

/-- Embedding of shouldDownload (pkg/tools/downloaded_tool.go lines 761-786):
returns (needDownload, deleteFirst); the source's error return is always
nil. -/
def shouldDownload (knownTotalBytes existingSize : Int) : Bool × Bool :=
  if existingSize = 0 then (true, false)
  else if knownTotalBytes = 0 then (true, false)
  else if existingSize = knownTotalBytes then (false, false)
  else if existingSize > knownTotalBytes then (true, true)
  else (true, false)

/-- Total size used for progress accounting in performDownload (lines
838-844): the HEAD value wins; otherwise the GET ContentLength, plus the
already-present size on a 206 (the size is taken after the open step, which
zeroes it for a full GET). -/
def computeTotalBytes (known : Int) (respStatus : Nat) (respLen : Int)
    (existingAfterOpen : Int) : Int :=
  if known ≠ 0 then known
  else respLen + (if respStatus = 206 ∧ existingAfterOpen > 0 then existingAfterOpen else 0)

/-- Result of performDownload: events emitted, the failed-URL list
afterwards, the error (none on success), and the Range header the GET
carried. -/
structure PerformResult where
  events : List DownloadProgress
  failed : List String
  result : Option DlErr
  rangeHdr : Option String
deriving DecidableEq, Repr

/-- Embedding of performDownload (pkg/tools/downloaded_tool.go lines
789-886). The Range header is set exactly when the local size is positive; a
416 is a silent success when the HEAD size is positive and equals the local
size, else a mirror failure; other non-200/206 statuses are mirror failures;
on a paused copy a "paused" event is emitted with the temp file's stat size
and the computed total, the URL is not recorded as failed, and the sentinel
is returned. -/
def performDownload (env : AttemptEnv) (url : String) (existingSize known : Int)
    (idx total : Int) (allURLs failed : List String) : PerformResult :=
  let range := if existingSize > 0 then some ("bytes=" ++ toString existingSize ++ "-") else none
  match env.get with
  | none =>
    { events := []
      failed := failed ++ [url]
      result := some (DlErr.msg "request failed to start")
      rangeHdr := range }
  | some resp =>
    if resp.status = 416 then
      if known > 0 ∧ existingSize = known then
        { events := [], failed := failed, result := none, rangeHdr := range }
      else
        { events := []
          failed := failed ++ [url]
          result := some (DlErr.msg "range request failed (416)")
          rangeHdr := range }
    else if resp.status ≠ 200 ∧ resp.status ≠ 206 then
      { events := []
        failed := failed ++ [url]
        result := some (DlErr.msg "failed to download tool")
        rangeHdr := range }
    else
      let isAppend := resp.status = 206 ∧ existingSize > 0
      let sizeAfterOpen := if isAppend then existingSize else 0
      let totalBytes := computeTotalBytes known resp.status resp.contentLength sizeAfterOpen
      match env.copy with
      | CopyResult.ok => { events := [], failed := failed, result := none, rangeHdr := range }
      | CopyResult.pausedA statSize =>
        { events := [{ totalBytes := totalBytes
                       downloadedBytes := statSize
                       status := "paused"
                       attemptIndex := idx + 1
                       totalAttempts := total
                       currentURL := url
                       failedURLs := failed
                       allURLs := allURLs }]
          failed := failed
          result := some DlErr.paused
          rangeHdr := range }
      | CopyResult.fail m =>
        { events := []
          failed := failed ++ [url]
          result := some (DlErr.msg m)
          rangeHdr := range }

/-- Archive detection from extractIfNeeded (line 890). -/
def isArchiveName (name : String) : Bool :=
  name.endsWith ".zip" || name.endsWith ".tar.gz" || name.endsWith ".tar.xz"

/-- Embedding of extractIfNeeded (lines 889-904): for an archive name an
"extracting" event is emitted and extraction runs (failure records the URL);
a non-archive file is the artifact as-is. Returns (events, failed, error). -/
def extractStep (extractOK : Bool) (fileName url : String) (idx total : Int)
    (allURLs failed : List String) : List DownloadProgress × List String × Option DlErr :=
  if isArchiveName fileName then
    let ev : DownloadProgress :=
      { status := "extracting"
        attemptIndex := idx + 1
        totalAttempts := total
        currentURL := url
        failedURLs := failed
        allURLs := allURLs }
    if extractOK then ([ev], failed, none)
    else ([ev], failed ++ [url], some (DlErr.msg "extraction failed"))
  else ([], failed, none)

/-- Result of one attemptDownload: events, failed list, error, whether a GET
was issued, whether the corrupted local file was deleted first, and the
Range header of the GET (none when no GET happened). -/
structure AttemptResult where
  events : List DownloadProgress
  failed : List String
  result : Option DlErr
  didGet : Bool
  deletedLocal : Bool
  rangeHdr : Option String
deriving DecidableEq, Repr

/-- Embedding of attemptDownload (pkg/tools/downloaded_tool.go lines
706-756): HEAD name (falling back to the URL basename), shouldDownload
decision, optional delete of the corrupted local file (modelled as always
succeeding), the GET, then extraction. -/
def attemptDownload (env : AttemptEnv) (url : String) (idx total : Int)
    (allURLs failed : List String) : AttemptResult :=
  let headName := match env.head with | some h => h.fileName | none => ""
  let known := match env.head with | some h => h.contentLength | none => 0
  let fileName? := if headName ≠ "" then some headName else env.urlBase
  match fileName? with
  | none =>
    { events := []
      failed := failed
      result := some (DlErr.msg "invalid url")
      didGet := false
      deletedLocal := false
      rangeHdr := none }
  | some fileName =>
    let sd := shouldDownload known env.existingSize
    let existing2 := if sd.2 then 0 else env.existingSize
    if sd.1 then
      let perf := performDownload env url existing2 known idx total allURLs failed
      match perf.result with
      | some e =>
        { events := perf.events
          failed := perf.failed
          result := some e
          didGet := true
          deletedLocal := sd.2
          rangeHdr := perf.rangeHdr }
      | none =>
        let ex := extractStep env.extractOK fileName url idx total allURLs perf.failed
        { events := perf.events ++ ex.1
          failed := ex.2.1
          result := ex.2.2
          didGet := true
          deletedLocal := sd.2
          rangeHdr := perf.rangeHdr }
    else
      let ex := extractStep env.extractOK fileName url idx total allURLs failed
      { events := ex.1
        failed := ex.2.1
        result := ex.2.2
        didGet := false
        deletedLocal := sd.2
        rangeHdr := none }

/-- Error text, for the final "failed" event. -/
def errText : DlErr → String
  | DlErr.paused => "download paused"
  | DlErr.msg m => m

/-- The "trying" event emitted before each mirror attempt (line 681). -/
def tryingEvent (attemptIndex total : Int) (url : String)
    (failed allURLs : List String) : DownloadProgress :=
  { status := "trying"
    attemptIndex := attemptIndex
    totalAttempts := total
    currentURL := url
    failedURLs := failed
    allURLs := allURLs }

/-- The bare "completed" event (lines 616 and 646). -/
def completedEvent : DownloadProgress := { status := "completed" }

/-- The final "failed" event when every mirror failed (line 699). -/
def failedFinalEvent (e : DlErr) (total : Int) (failed allURLs : List String) :
    DownloadProgress :=
  { status := "failed"
    errMsg := some (errText e)
    attemptIndex := total
    totalAttempts := total
    failedURLs := failed
    allURLs := allURLs }

/-- Aggregate result of the attempt loop / downloadTool. -/
structure EngineResult where
  events : List DownloadProgress
  result : Option DlErr
  failed : List String
  network : Nat
deriving DecidableEq, Repr

/-- Network requests of one attempt: the HEAD plus the GET when issued. -/
def networkOfAttempt (ar : AttemptResult) : Nat := 1 + (if ar.didGet then 1 else 0)

/-- Embedding of the mirror loop of downloadTool (lines 676-702): empty URLs
are skipped, a "trying" event precedes each real attempt, a paused attempt
returns the sentinel immediately, a failed attempt records lastErr and
continues, a successful attempt returns nil; exhaustion emits the final
"failed" event with lastErr. -/
def downloadLoop (total : Int) (allURLs : List String) :
    List (String × AttemptEnv) → Int → List String → Option DlErr → EngineResult
  | [], _, failed, lastErr =>
    match lastErr with
    | some e =>
      { events := [failedFinalEvent e total failed allURLs]
        result := some e
        failed := failed
        network := 0 }
    | none =>
      { events := []
        result := some (DlErr.msg "unexpected download failure without error")
        failed := failed
        network := 0 }
  | (u, env) :: rest, i, failed, lastErr =>
    if u = "" then downloadLoop total allURLs rest (i + 1) failed lastErr
    else
      let tryEv := tryingEvent (i + 1) total u failed allURLs
      let ar := attemptDownload env u i total allURLs failed
      match ar.result with
      | some DlErr.paused =>
        { events := tryEv :: ar.events
          result := some DlErr.paused
          failed := ar.failed
          network := networkOfAttempt ar }
      | some e =>
        let r := downloadLoop total allURLs rest (i + 1) ar.failed (some e)
        { events := tryEv :: (ar.events ++ r.events)
          result := r.result
          failed := r.failed
          network := networkOfAttempt ar + r.network }
      | none =>
        { events := tryEv :: ar.events
          result := none
          failed := ar.failed
          network := networkOfAttempt ar }

/-- Embedding of downloadTool (lines 639-703): the fast path emits a single
"completed" event (after zeroing the persisted download process) when the
entry already resolves in a candidate root; an empty URL list fails without
any network use; otherwise the mirror loop runs. -/
def downloadTool (toolExists : Bool) (urls : List (String × AttemptEnv)) : EngineResult :=
  if toolExists then
    { events := [completedEvent], result := none, failed := [], network := 0 }
  else if urls.isEmpty then
    { events := [{ status := "failed", errMsg := some "no download urls provided" }]
      result := some (DlErr.msg "no download urls provided")
      failed := []
      network := 0 }
  else
    downloadLoop (urls.length : Int) (urls.map Prod.fst) urls 0 [] none

/-- Oracles of the post-install exec check of Install (lines 569-614):
whether the config marks the tool executable, the resolved storage folder,
the cached probe verdict there, the configured tmp-exec root ("" = unset)
and the probe / mkdir / copy outcomes on it. -/
structure ExecEnv where
  isExecutable : Bool
  storageFolder : Option String
  storageExecOK : Bool
  tmpExecRoot : String
  tmpPreExecOK : Bool
  mkdirOK : Bool
  copyOK : Bool
  tmpPostExecOK : Bool
deriving DecidableEq, Repr

/-- Errors Install can return. -/
inductive InstallErr where
  | busy
  | download (e : DlErr)
  | execFail (m : String)
deriving DecidableEq, Repr

/-- Result of one Install call. -/
structure InstallResult where
  events : List DownloadProgress
  err : Option InstallErr
  network : Nat
deriving DecidableEq, Repr

/-- A "failed" event carrying only an error, as Install emits. -/
def failEv (m : String) : DownloadProgress := { status := "failed", errMsg := some m }

/-- Embedding of the post-install exec check of Install (lines 569-617),
run after a successful downloadTool; on full success the final "completed"
event is emitted. -/
def execCheck (dl : EngineResult) (ee : ExecEnv) : InstallResult :=
  if ee.isExecutable then
    match ee.storageFolder with
    | none =>
      { events := dl.events ++ [failEv "install succeeded but tool folder not found"]
        err := some (InstallErr.execFail "install succeeded but tool folder not found")
        network := dl.network }
    | some _ =>
      if ee.storageExecOK then
        { events := dl.events ++ [completedEvent], err := none, network := dl.network }
      else if ee.tmpExecRoot ≠ "" then
        if !ee.tmpPreExecOK then
          { events := dl.events ++ [failEv "tmp exec folder not executable"]
            err := some (InstallErr.execFail "tmp exec folder not executable")
            network := dl.network }
        else if ee.mkdirOK then
          if !ee.copyOK then
            { events := dl.events ++ [failEv "copy to tmp exec folder failed"]
              err := some (InstallErr.execFail "copy to tmp exec folder failed")
              network := dl.network }
          else if !ee.tmpPostExecOK then
            { events := dl.events ++ [failEv "execution not supported even in tmp exec folder"]
              err := some (InstallErr.execFail "execution not supported even in tmp exec folder")
              network := dl.network }
          else
            { events := dl.events ++ [completedEvent], err := none, network := dl.network }
        else
          { events := dl.events ++ [failEv "mkdir tmp exec folder failed"]
            err := some (InstallErr.execFail "mkdir tmp exec folder failed")
            network := dl.network }
      else
        { events := dl.events ++ [failEv "no tmp exec folder configured for non-executable storage"]
          err := some (InstallErr.execFail "no tmp exec folder configured for non-executable storage")
          network := dl.network }
  else
    { events := dl.events ++ [completedEvent], err := none, network := dl.network }

/-- Embedding of DownloadedTool.Install (lines 546-618): non-blocking mutex
acquisition (busy on contention), downloadTool, the paused sentinel turned
into nil success, then the exec check. -/
def installRun (mutexFree toolExists : Bool) (urls : List (String × AttemptEnv))
    (ee : ExecEnv) : InstallResult :=
  if !mutexFree then { events := [], err := some InstallErr.busy, network := 0 }
  else
    let dl := downloadTool toolExists urls
    match dl.result with
    | some DlErr.paused => { events := dl.events, err := none, network := dl.network }
    | some e => { events := dl.events, err := some (InstallErr.download e), network := dl.network }
    | none => execCheck dl ee

/-! ### Filesystem model and Uninstall
(pkg/tools/base_tool.go BaseTool.Uninstall; downloaded_tool.go
DownloadedTool.Uninstall) -/

/-- A path, as its components; generateToolFolderPath joins components with
"/". -/
abbrev FPath := List String

/-- A filesystem is the list of existing files (each a full path). A
directory exists when some file lies at or under it. -/
abbrev FileSys := List FPath

/-- os.Stat on a directory: some file is at or under it. -/
def dirExists (fs : FileSys) (d : FPath) : Bool :=
  fs.any fun p => decide (d <+: p)

/-- os.Stat on a file: exact membership. -/
def fileInFs (fs : FileSys) (f : FPath) : Bool :=
  fs.any fun p => decide (p = f)

/-- os.RemoveAll of a directory: drop every file at or under it. -/
def removeAllFs (fs : FileSys) (d : FPath) : FileSys :=
  fs.filter fun p => !decide (d <+: p)

/-- os.Rename of a directory: files under src move under dst. -/
def renameFs (fs : FileSys) (src dst : FPath) : FileSys :=
  fs.map fun p => if src <+: p then dst ++ p.drop src.length else p

/-- os.Remove of a file (a missing file is the tolerated IsNotExist case). -/
def removeFileFs (fs : FileSys) (f : FPath) : FileSys :=
  fs.filter fun p => !decide (p = f)

/-- Static configuration of one tool handle: roots, platform, identity,
relative entry path and the tmp-exec root. -/
structure ToolCtx where
  writableRoot : FPath
  roRoots : List FPath
  goos : String
  goarch : String
  toolName : String
  version : String
  entry : FPath
  tmpExecRoot : FPath
deriving DecidableEq, Repr

/-- generateToolFolderPath: root/os/arch/name/version. -/
def toolFolderPath (c : ToolCtx) (root : FPath) : FPath :=
  root ++ [c.goos, c.goarch, c.toolName, c.version]

/-- GetWritableToolFolder. -/
def writableFolderOf (c : ToolCtx) : FPath := toolFolderPath c c.writableRoot

/-- getCandidateRootFolders: read-only roots in order, then the writable
root. -/
def candidateRoots (c : ToolCtx) : List FPath := c.roRoots ++ [c.writableRoot]

/-- resolveExistingPath: the folder under the first candidate root whose
entry file exists. -/
def resolveExisting (fs : FileSys) (c : ToolCtx) : Option FPath :=
  ((candidateRoots c).find? fun r => fileInFs fs (toolFolderPath c r ++ c.entry)).map
    fun r => toolFolderPath c r

/-- DoesToolExist. -/
def doesToolExist (fs : FileSys) (c : ToolCtx) : Bool := (resolveExisting fs c).isSome

/-- MetadataFilenameSuffix. -/
def metaSuffix : String := ".toolmeta.json"

/-- getMetadataPath: the per-version sidecar, a sibling of the version
folder named version + suffix. -/
def metaFilePath (c : ToolCtx) : FPath :=
  c.writableRoot ++ [c.goos, c.goarch, c.toolName, c.version ++ metaSuffix]

/-- The .tmp companion of the sidecar. -/
def metaTmpFilePath (c : ToolCtx) : FPath :=
  c.writableRoot ++ [c.goos, c.goarch, c.toolName, c.version ++ metaSuffix ++ ".tmp"]

/-- .trash-version-uuid, the trash sibling name. -/
def trashName (version uuid : String) : String := ".trash-" ++ version ++ "-" ++ uuid

/-- Error of the uninstall path (only mutex contention survives to the
caller). -/
inductive ToolErr where
  | busy
deriving DecidableEq, Repr

/-- Embedding of BaseTool.Uninstall (pkg/tools/base_tool.go lines 134-171):
non-blocking lock, rename the resolved version folder to a trash sibling,
best-effort remove the trash, then remove the tmp-exec copy. Filesystem
operations succeed (ideal filesystem), matching the paths on which the
source ignores or cannot hit their errors. -/
def baseUninstall (fs : FileSys) (c : ToolCtx) (busy : Bool) (uuid : String) :
    FileSys × Option ToolErr :=
  if busy then (fs, some ToolErr.busy)
  else
    match resolveExisting fs c with
    | none => (fs, none)
    | some folder =>
      if dirExists fs folder then
        let trash := folder.dropLast ++ [trashName c.version uuid]
        let fs1 := renameFs fs folder trash
        let fs2 := removeAllFs fs1 trash
        let fs3 := removeAllFs fs2 (toolFolderPath c c.tmpExecRoot)
        (fs3, none)
      else (fs, none)

/-- Embedding of DownloadedTool.Uninstall (pkg/tools/downloaded_tool.go
lines 907-951): BaseTool.Uninstall first; then, unconditionally, the
writable version folder is trashed and removed and both metadata sidecars
are deleted; a non-busy base error is swallowed (the source returns nil for
it), so only ErrToolBusy survives. -/
def downloadedUninstall (fs : FileSys) (c : ToolCtx) (busy : Bool) (u1 u2 : String) :
    FileSys × Option ToolErr :=
  let b := baseUninstall fs c busy u1
  let fs1 := b.1
  let wf := writableFolderOf c
  let fs2 :=
    if dirExists fs1 wf then
      let trash := wf.dropLast ++ [trashName c.version u2]
      removeAllFs (renameFs fs1 wf trash) trash
    else fs1
  let fs3 := removeFileFs fs2 (metaFilePath c)
  let fs4 := removeFileFs fs3 (metaTmpFilePath c)
  let err :=
    match b.2 with
    | some ToolErr.busy => some ToolErr.busy
    | none => none
  (fs4, err)

/-! ### Content-Disposition filename parsing
(pkg/tools/downloaded_tool.go parseContentDispositionFilename,
getFileNameFromURL; strings are modelled as their character sequences, so
indices count characters where Go counts bytes - identical on the ASCII
header syntax involved). -/

/-- The apostrophe character (code 39), used by the RFC 5987 separator. -/
def quoteChar : Char := Char.ofNat 39

/-- strings.Index: first position at which the needle occurs. -/
def idxOfAux (needle : List Char) : List Char → Nat → Option Nat
  | [], i => if needle.isPrefixOf [] then some i else none
  | c :: t, i => if needle.isPrefixOf (c :: t) then some i else idxOfAux needle t (i + 1)

/-- strings.Index over the haystack from position 0. -/
def idxOf (hay needle : List Char) : Option Nat := idxOfAux needle hay 0

/-- Value of a hex digit. -/
def hexVal (c : Char) : Option Nat :=
  if ('0' ≤ c ∧ c ≤ '9') then some (c.toNat - '0'.toNat)
  else if ('a' ≤ c ∧ c ≤ 'f') then some (c.toNat - 'a'.toNat + 10)
  else if ('A' ≤ c ∧ c ≤ 'F') then some (c.toNat - 'A'.toNat + 10)
  else none

/-- url.PathUnescape: percent-decoding; a '%' not followed by two hex digits
is an error; every other character passes through. -/
def pctDecode : List Char → Option (List Char)
  | [] => some []
  | c :: rest =>
    if c = '%' then
      match rest with
      | a :: b :: rest2 =>
        match hexVal a, hexVal b with
        | some x, some y =>
          match pctDecode rest2 with
          | some d => some (Char.ofNat (16 * x + y) :: d)
          | none => none
        | _, _ => none
      | _ => none
    else
      match pctDecode rest with
      | some d => some (c :: d)
      | none => none

/-- A whitespace character as trimmed by strings.TrimSpace (the ASCII
subset, which is all that occurs in these headers). -/
def isSpaceChar (c : Char) : Bool := c = ' ' || c = '\t' || c = '\n' || c = '\r'

/-- strings.TrimSpace. -/
def trimSpaceL (s : List Char) : List Char :=
  ((s.dropWhile isSpaceChar).reverse.dropWhile isSpaceChar).reverse

/-- The marker of the RFC 5987 form. -/
def fnStarMarker : List Char := "filename*=".toList

/-- The two-apostrophe separator of the RFC 5987 form. -/
def twoQuotes : List Char := [quoteChar, quoteChar]

/-- The marker of the quoted form. -/
def fnQuotedMarker : List Char := "filename=\"".toList

/-- The marker of the unquoted form. -/
def fnMarker : List Char := "filename=".toList

/-- Step 1 of parseContentDispositionFilename (lines 1088-1102): find
"filename*=", find the two-quote separator, cut at the next ";", trim,
percent-decode; succeed only on a nonempty decode. -/
def extract5987 (cd : List Char) : Option (List Char) :=
  match idxOf cd fnStarMarker with
  | none => none
  | some idx =>
    let rest := cd.drop (idx + fnStarMarker.length)
    match idxOf rest twoQuotes with
    | none => none
    | some encIdx =>
      let encoded := rest.drop (encIdx + 2)
      let encoded :=
        match idxOf encoded [';'] with
        | some endIdx => encoded.take endIdx
        | none => encoded
      let encoded := trimSpaceL encoded
      match pctDecode encoded with
      | some d => if d = [] then none else some d
      | none => none

/-- Step 2 (lines 1105-1111): the quoted form, up to the closing quote. -/
def extractQuoted (cd : List Char) : Option (List Char) :=
  match idxOf cd fnQuotedMarker with
  | none => none
  | some idx =>
    let rest := cd.drop (idx + fnQuotedMarker.length)
    match idxOf rest ['"'] with
    | some endIdx => some (rest.take endIdx)
    | none => none

/-- Step 3 (lines 1114-1122): the unquoted form, cut at ";" and trimmed. -/
def extractUnquoted (cd : List Char) : Option (List Char) :=
  match idxOf cd fnMarker with
  | none => none
  | some idx =>
    let rest := cd.drop (idx + fnMarker.length)
    let rest :=
      match idxOf rest [';'] with
      | some endIdx => rest.take endIdx
      | none => rest
    some (trimSpaceL rest)

/-- Embedding of parseContentDispositionFilename (lines 1083-1125): the
three forms are tried in order; each block either returns its value or
falls through to the next; "" when none matches. -/
def parseContentDispositionFilename (cd : String) : String :=
  match extract5987 cd.toList with
  | some n => String.mk n
  | none =>
    match extractQuoted cd.toList with
    | some n => String.mk n
    | none =>
      match extractUnquoted cd.toList with
      | some n => String.mk n
      | none => ""

/-- Go path.Base: "." for the empty path, "/" for an all-slash path, else
the last element with trailing slashes removed. -/
def pathBase (p : String) : String :=
  if p = "" then "."
  else
    let r := p.toList.reverse.dropWhile fun c => c = '/'
    if r = [] then "/"
    else String.mk ((r.takeWhile fun c => c ≠ '/').reverse)

/-- Filename resolution in attemptDownload (lines 708-723): the HEAD's
Content-Disposition name when the header is present and yields a name,
otherwise the basename of the URL path (getFileNameFromURL). -/
def downloadFileNameFor (cd : Option String) (urlPath : String) : String :=
  let headName :=
    match cd with
    | some c => parseContentDispositionFilename c
    | none => ""
  if headName ≠ "" then headName else pathBase urlPath

/-! ## Theorems -/

/-- C7 counterexample: on a non-POSIX platform (GOOS = "windows") the probe
returns false for the empty directory string - the `dir == ""` guard runs
before the platform check - contradicting "returns true unconditionally,
i.e. for every directory argument including the empty string". -/
theorem execSupported_empty_dir_counterexample :
    ("windows" ≠ "linux") ∧
    isExecSupported "windows" (fun _ => true) "" = false := by
  exact ⟨by decide, rfl⟩

/-- C7 (amended): on every platform other than linux, isExecSupported
returns true for every nonempty directory argument; the empty directory
yields false on every platform. -/
theorem execSupported_nonposix_amended (goos dir : String) (probe : LinuxProbe)
    (hgoos : goos ≠ "linux") :
    (dir ≠ "" → isExecSupported goos probe dir = true) ∧
    isExecSupported goos probe "" = false := by
  constructor
  · intro hdir
    simp [isExecSupported, hdir, hgoos]
  · simp [isExecSupported]

/-- C7 witness: the amended theorem evaluated on GOOS "windows". -/
theorem execSupported_nonposix_amended_witness :
    (("windows" : String) ≠ "linux") ∧ (("C:\\tools" : String) ≠ "") ∧
    isExecSupported "windows" (fun _ => false) "C:\\tools" = true ∧
    isExecSupported "windows" (fun _ => false) "" = false := by
  refine ⟨by decide, by decide, ?_, ?_⟩
  · exact (execSupported_nonposix_amended "windows" "C:\\tools" (fun _ => false)
      (by decide)).1 (by decide)
  · exact (execSupported_nonposix_amended "windows" "C:\\tools" (fun _ => false)
      (by decide)).2

/-- C6 counterexample: with an install of dotnet@8.0.5 in flight only in the
programmatic registry (markActive, as DownloadedTool.Install records it),
the HTTP install handler still answers 202 and starts a new background task,
contradicting "responds 409 Conflict and starts no new background task ...
no matter whether that in-flight install was started over HTTP or
programmatically": the handler consults only its own activeInstalls map. -/
theorem install_handler_programmatic_counterexample :
    installInProgress (markActive ⟨[], []⟩ "dotnet" "8.0.5")
      (installKey "dotnet" "8.0.5") = true ∧
    (handleInstall (markActive ⟨[], []⟩ "dotnet" "8.0.5") "dotnet" "8.0.5").statusCode = 202 ∧
    (handleInstall (markActive ⟨[], []⟩ "dotnet" "8.0.5") "dotnet" "8.0.5").startedTask = true := by
  exact ⟨by decide, by decide, by decide⟩

/-- C6 (amended): the install handler answers 409 Conflict and starts no
background task exactly when the key is already active in the HTTP handler's
own registry (webui.activeInstalls); when the key is absent there - even if
a programmatic install registered it in tools.activeDownloads - the handler
answers 202 and starts a background task. -/
theorem install_handler_guard_amended (s : ActiveState) (toolName version : String)
    (ht : toolName ≠ "") (hv : version ≠ "") :
    (s.httpActive.contains (installKey toolName version) = true →
      (handleInstall s toolName version).statusCode = 409 ∧
      (handleInstall s toolName version).startedTask = false) ∧
    (s.httpActive.contains (installKey toolName version) = false →
      (handleInstall s toolName version).statusCode = 202 ∧
      (handleInstall s toolName version).startedTask = true) := by
  constructor <;> intro h <;> simp at h <;> simp [handleInstall, ht, hv, h]

/-- C6 witness: the amended guard evaluated on concrete registries. -/
theorem install_handler_guard_amended_witness :
    (("dotnet" : String) ≠ "") ∧ (("8.0.5" : String) ≠ "") ∧
    (handleInstall ⟨[installKey "dotnet" "8.0.5"], []⟩ "dotnet" "8.0.5").statusCode = 409 ∧
    (handleInstall ⟨[], [installKey "dotnet" "8.0.5"]⟩ "dotnet" "8.0.5").statusCode = 202 := by
  refine ⟨by decide, by decide, ?_, ?_⟩
  · exact ((install_handler_guard_amended ⟨[installKey "dotnet" "8.0.5"], []⟩
      "dotnet" "8.0.5" (by decide) (by decide)).1 (by decide)).1
  · exact ((install_handler_guard_amended ⟨[], [installKey "dotnet" "8.0.5"]⟩
      "dotnet" "8.0.5" (by decide) (by decide)).2 (by decide)).1

/-- C10 counterexample: the JSON array [null] is neither a string, nor an
array of strings, nor an object, yet UnmarshalJSON returns a nil error with
Values = [""] - not empty - because Go's []string decode accepts the null
element as a no-op leaving the zero value "". (The entry is still dropped at
load time, since its primary value is "".) -/
theorem osarch_unmarshal_counterexample :
    isJsonString (Json.arr [Json.null]) = false ∧
    isJsonStringArray (Json.arr [Json.null]) = false ∧
    isJsonObject (Json.arr [Json.null]) = false ∧
    unmarshalOsArch "linux" "amd64" (Json.arr [Json.null]) = some [""] ∧
    ([""] : List String) ≠ [] := by
  refine ⟨rfl, rfl, rfl, rfl, by simp⟩

/-- C10 (amended): for every JSON value that decodes as neither a Go
[]string (an array of strings, where a null element is tolerated as ""), nor
a string, nor an object, and likewise for an object with no entry (or a null
entry) for the current OS, or whose OS entry is an object with no entry (or
a null entry) for the current architecture, UnmarshalJSON returns a nil
error and leaves Values empty - so such a downloadUrl never fails config
loading, and the entry is dropped for the current platform at load time
(its primary value is empty). -/
theorem osarch_unmarshal_lenient (goos goarch : String) :
    (∀ j : Json, asStringArray j = none → asString j = none → isJsonObject j = false →
      unmarshalOsArch goos goarch j = some []) ∧
    (∀ fields, (lookupField fields goos = none ∨ lookupField fields goos = some Json.null) →
      unmarshalOsArch goos goarch (Json.obj fields) = some []) ∧
    (∀ fields archFields, lookupField fields goos = some (Json.obj archFields) →
      (lookupField archFields goarch = none ∨ lookupField archFields goarch = some Json.null) →
      unmarshalOsArch goos goarch (Json.obj fields) = some []) ∧
    entryKept [] = false := by
  refine ⟨?_, ?_, ?_, rfl⟩
  · intro j h1 h2 h3
    cases j with
    | str s => simp [asString] at h2
    | num n => simp [unmarshalOsArch, asStringArray, asString, asObjectMap]
    | bool b => simp [unmarshalOsArch, asStringArray, asString, asObjectMap]
    | arr items => simp [unmarshalOsArch, h1, asString, asObjectMap]
    | obj fields => simp [isJsonObject] at h3
    | null => simp [asStringArray] at h1
  · intro fields h
    rcases h with h | h <;>
      simp [unmarshalOsArch, asStringArray, asString, asObjectMap, h]
  · intro fields archFields hf h
    rcases h with h | h <;>
      simp [unmarshalOsArch, asStringArray, asString, asObjectMap, hf, parseLeaf, h]

/-- C10 witness: the amended theorem evaluated on a number, an object
without the current OS, and an object whose OS entry lacks the current
architecture. -/
theorem osarch_unmarshal_lenient_witness :
    unmarshalOsArch "linux" "amd64" (Json.num 42) = some [] ∧
    unmarshalOsArch "linux" "amd64" (Json.obj [("darwin", Json.str "x")]) = some [] ∧
    unmarshalOsArch "linux" "amd64"
      (Json.obj [("linux", Json.obj [("arm64", Json.str "u")])]) = some [] ∧
    entryKept [] = false := by
  refine ⟨?_, ?_, ?_, (osarch_unmarshal_lenient "linux" "amd64").2.2.2⟩
  · exact (osarch_unmarshal_lenient "linux" "amd64").1 (Json.num 42) rfl rfl rfl
  · exact (osarch_unmarshal_lenient "linux" "amd64").2.1 [("darwin", Json.str "x")]
      (Or.inl rfl)
  · exact (osarch_unmarshal_lenient "linux" "amd64").2.2.1
      [("linux", Json.obj [("arm64", Json.str "u")])] [("arm64", Json.str "u")]
      rfl (Or.inl rfl)

/-- C3: for every progress event processed by the metadata store, an event
with status "completed" resets the persisted download-process record to the
zero value (and persists it), and events with status "trying",
"extracting", "paused", "failed" or "disabled" are always written to disk -
via the temp-file-plus-rename writeMetadataFile - even when the record is
unchanged from the previous one (the write ops do not depend on prev). -/
theorem metadata_progress_persistence (path : String) (prev : DownloadProcess)
    (dp : DownloadProgress) :
    (dp.status = "completed" →
      (updateMetadataOps path prev dp).1 = {} ∧
      (updateMetadataOps path prev dp).2 = writeMetadataFileOps path) ∧
    ((dp.status = "trying" ∨ dp.status = "extracting" ∨ dp.status = "paused" ∨
        dp.status = "failed" ∨ dp.status = "disabled") →
      (updateMetadataOps path prev dp).2 = writeMetadataFileOps path) ∧
    writeMetadataFileOps path =
      [FsOp.writeFile (path ++ ".tmp"), FsOp.rename (path ++ ".tmp") path] := by
  refine ⟨?_, ?_, rfl⟩
  · intro h
    simp [updateMetadataOps, updateDownloadProcess, h]
  · rintro (h | h | h | h | h) <;>
      simp [updateMetadataOps, updateDownloadProcess, h]

/-- C3 witness: a "paused" event whose resulting record equals the previous
one is still written, and a "completed" event zeroes the record. -/
theorem metadata_progress_persistence_witness :
    (updateMetadataOps "m.toolmeta.json"
      { status := "paused", attemptIndex := 1, totalAttempts := 1 }
      { status := "paused", attemptIndex := 1, totalAttempts := 1 }).2 =
      writeMetadataFileOps "m.toolmeta.json" ∧
    (updateMetadataOps "m.toolmeta.json"
      { status := "paused", attemptIndex := 1, totalAttempts := 1 }
      { status := "completed" }).1 = {} := by
  constructor
  · exact (metadata_progress_persistence "m.toolmeta.json"
      { status := "paused", attemptIndex := 1, totalAttempts := 1 }
      { status := "paused", attemptIndex := 1, totalAttempts := 1 }).2.1
      (Or.inr (Or.inr (Or.inl rfl)))
  · exact ((metadata_progress_persistence "m.toolmeta.json"
      { status := "paused", attemptIndex := 1, totalAttempts := 1 }
      { status := "completed" }).1 rfl).1

/-- The Range header of performDownload depends only on the local size: set
to "bytes=L-" exactly when L is positive. -/
theorem performDownload_rangeHdr (env : AttemptEnv) (url : String)
    (existingSize known idx total : Int) (allURLs failed : List String) :
    (performDownload env url existingSize known idx total allURLs failed).rangeHdr =
      (if existingSize > 0 then some ("bytes=" ++ toString existingSize ++ "-") else none) := by
  unfold performDownload
  rcases hg : env.get with _ | resp
  · rfl
  · rcases hc : env.copy with _ | s | m <;> simp only [] <;> split_ifs <;> rfl

/-- C1: for every download attempt with HEAD size serverSize and local temp
size L, the decision matches the spec's ordered cases: L = 0 or serverSize
= 0 downloads without first deleting the temp file; L = serverSize (both
nonzero) skips the GET and goes straight to extraction; L > serverSize
(serverSize nonzero, so the earlier case does not apply) deletes the local
file and restarts as a fresh GET with no Range header; and 0 < L <
serverSize issues a range GET with header "bytes=L-". -/
theorem shouldDownload_decision (env : AttemptEnv) (url nm : String) (server L : Int)
    (idx total : Int) (allURLs failed : List String)
    (hhead : env.head = some ⟨nm, server⟩) (hnm : nm ≠ "")
    (hex : env.existingSize = L) (hL : 0 ≤ L) (hS : 0 ≤ server) :
    ((L = 0 ∨ server = 0) →
      shouldDownload server L = (true, false) ∧
      (attemptDownload env url idx total allURLs failed).didGet = true ∧
      (attemptDownload env url idx total allURLs failed).deletedLocal = false) ∧
    ((L = server ∧ L ≠ 0) →
      shouldDownload server L = (false, false) ∧
      (attemptDownload env url idx total allURLs failed).didGet = false ∧
      (isArchiveName nm = true →
        (attemptDownload env url idx total allURLs failed).events.map
          DownloadProgress.status = ["extracting"])) ∧
    ((L > server ∧ server ≠ 0) →
      shouldDownload server L = (true, true) ∧
      (attemptDownload env url idx total allURLs failed).deletedLocal = true ∧
      (attemptDownload env url idx total allURLs failed).didGet = true ∧
      (attemptDownload env url idx total allURLs failed).rangeHdr = none) ∧
    ((0 < L ∧ L < server) →
      shouldDownload server L = (true, false) ∧
      (attemptDownload env url idx total allURLs failed).deletedLocal = false ∧
      (attemptDownload env url idx total allURLs failed).didGet = true ∧
      (attemptDownload env url idx total allURLs failed).rangeHdr =
        some ("bytes=" ++ toString L ++ "-")) := by
  refine ⟨?_, ?_, ?_, ?_⟩
  · intro h
    have hsd : shouldDownload server L = (true, false) := by
      unfold shouldDownload; split_ifs <;> first | rfl | omega
    refine ⟨hsd, ?_⟩
    rcases hp : (performDownload env url L server idx total allURLs failed).result with _ | e <;>
      simp [attemptDownload, hhead, hnm, hex, hsd, hp]
  · rintro ⟨h1, h2⟩
    have hsd : shouldDownload server L = (false, false) := by
      unfold shouldDownload; split_ifs <;> first | rfl | omega
    refine ⟨hsd, ?_, ?_⟩
    · simp [attemptDownload, hhead, hnm, hex, hsd]
    · intro harch
      simp [attemptDownload, hhead, hnm, hex, hsd, extractStep, harch]
      rcases henv : env.extractOK <;> simp [henv]
  · rintro ⟨h1, h2⟩
    have hsd : shouldDownload server L = (true, true) := by
      unfold shouldDownload; split_ifs <;> first | rfl | omega
    refine ⟨hsd, ?_⟩
    rcases hp : (performDownload env url 0 server idx total allURLs failed).result with _ | e <;>
      simp [attemptDownload, hhead, hnm, hex, hsd, hp, performDownload_rangeHdr]
  · rintro ⟨h1, h2⟩
    have hsd : shouldDownload server L = (true, false) := by
      unfold shouldDownload; split_ifs <;> first | rfl | omega
    refine ⟨hsd, ?_⟩
    rcases hp : (performDownload env url L server idx total allURLs failed).result with _ | e <;>
      simp [attemptDownload, hhead, hnm, hex, hsd, hp, performDownload_rangeHdr, h1]

/-- C1 witness: a resumable attempt with L = 40 and serverSize = 100 issues
a range GET with header "bytes=40-" and deletes nothing. -/
theorem shouldDownload_decision_witness :
    (attemptDownload ⟨some ⟨"a.zip", 100⟩, none, 40, some ⟨206, 60⟩, CopyResult.ok, true⟩
      "http://m/a.zip" 0 1 ["http://m/a.zip"] []).rangeHdr =
      some ("bytes=" ++ toString (40 : Int) ++ "-") ∧
    (attemptDownload ⟨some ⟨"a.zip", 100⟩, none, 40, some ⟨206, 60⟩, CopyResult.ok, true⟩
      "http://m/a.zip" 0 1 ["http://m/a.zip"] []).deletedLocal = false := by
  have h := shouldDownload_decision
    ⟨some ⟨"a.zip", 100⟩, none, 40, some ⟨206, 60⟩, CopyResult.ok, true⟩
    "http://m/a.zip" "a.zip" 100 40 0 1 ["http://m/a.zip"] []
    rfl (by decide) rfl (by decide) (by decide)
  have h4 := h.2.2.2 ⟨by decide, by decide⟩
  exact ⟨h4.2.2.2, h4.2.1⟩

/-- C4: for every GET response with status 416: when the HEAD size is
nonzero and the local size equals it, the attempt is a successful skip with
no mirror failure recorded; when the sizes differ - and likewise when both
are 0, which the source's knownTotalBytes > 0 guard sends to the failure
branch - the URL is appended to failedUrls and the attempt fails. -/
theorem range416_handling (env : AttemptEnv) (resp : HttpResp) (url : String)
    (existing known idx total : Int) (allURLs failed : List String)
    (hget : env.get = some resp) (h416 : resp.status = 416) :
    ((known ≠ 0 ∧ 0 ≤ known ∧ existing = known) →
      (performDownload env url existing known idx total allURLs failed).result = none ∧
      (performDownload env url existing known idx total allURLs failed).failed = failed) ∧
    ((existing ≠ known ∨ (existing = 0 ∧ known = 0)) →
      (performDownload env url existing known idx total allURLs failed).result =
        some (DlErr.msg "range request failed (416)") ∧
      (performDownload env url existing known idx total allURLs failed).failed =
        failed ++ [url]) := by
  constructor
  · rintro ⟨h1, h2, h3⟩
    have hk : known > 0 := by omega
    simp [performDownload, hget, h416, hk, h3]
  · intro h
    have hcond : ¬ (known > 0 ∧ existing = known) := by
      rcases h with h | ⟨h0, h1⟩ <;> omega
    simp [performDownload, hget, h416, hcond]

/-- C4 witness: 416 with L = serverSize = 50 is a silent skip; 416 with L =
serverSize = 0 is a recorded mirror failure. -/
theorem range416_handling_witness :
    (performDownload ⟨some ⟨"a.zip", 50⟩, none, 50, some ⟨416, 0⟩, CopyResult.ok, true⟩
      "u" 50 50 0 1 ["u"] []).result = none ∧
    (performDownload ⟨some ⟨"a.zip", 0⟩, none, 0, some ⟨416, 0⟩, CopyResult.ok, true⟩
      "u" 0 0 0 1 ["u"] []).failed = [] ++ ["u"] := by
  constructor
  · exact ((range416_handling ⟨some ⟨"a.zip", 50⟩, none, 50, some ⟨416, 0⟩, CopyResult.ok, true⟩
      ⟨416, 0⟩ "u" 50 50 0 1 ["u"] [] rfl rfl).1 ⟨by decide, by decide, rfl⟩).1
  · exact ((range416_handling ⟨some ⟨"a.zip", 0⟩, none, 0, some ⟨416, 0⟩, CopyResult.ok, true⟩
      ⟨416, 0⟩ "u" 0 0 0 1 ["u"] [] rfl rfl).2 (Or.inr ⟨rfl, rfl⟩)).2

/-- When the copy loop of performDownload stops with the pause sentinel, the
whole result is determined: one "paused" event carrying the temp file's stat
size and the computed total, the failed list unchanged, and the sentinel. -/
theorem performDownload_paused_eq (env : AttemptEnv) (resp : HttpResp) (s : Int)
    (url : String) (existing known idx total : Int) (allURLs failed : List String)
    (hget : env.get = some resp) (hst : resp.status = 200 ∨ resp.status = 206)
    (hcopy : env.copy = CopyResult.pausedA s) :
    performDownload env url existing known idx total allURLs failed =
      { events := [{ totalBytes := computeTotalBytes known resp.status resp.contentLength
                       (if resp.status = 206 ∧ existing > 0 then existing else 0)
                     downloadedBytes := s
                     status := "paused"
                     attemptIndex := idx + 1
                     totalAttempts := total
                     currentURL := url
                     failedURLs := failed
                     allURLs := allURLs }]
        failed := failed
        result := some DlErr.paused
        rangeHdr := if existing > 0 then some ("bytes=" ++ toString existing ++ "-") else none } := by
  rcases hst with h | h <;> simp [performDownload, hget, hcopy, h]

/-- C2: whenever the download copy loop stops with the Paused sentinel, (a)
performDownload emits exactly one "paused" event carrying the current byte
count of the temp file and the last known total, leaves failedUrls
unchanged, and returns the sentinel; (b) attemptDownload passes the
sentinel up with failedUrls still unchanged; (c) the mirror loop returns
the sentinel immediately at that attempt; (d) the enclosing Install call
turns the sentinel into a nil-success return. -/
theorem paused_copy_loop_behavior :
    (∀ (env : AttemptEnv) (resp : HttpResp) (s : Int) (url : String)
        (existing known idx total : Int) (allURLs failed : List String),
      env.get = some resp → (resp.status = 200 ∨ resp.status = 206) →
      env.copy = CopyResult.pausedA s →
      (performDownload env url existing known idx total allURLs failed).events =
        [{ totalBytes := computeTotalBytes known resp.status resp.contentLength
             (if resp.status = 206 ∧ existing > 0 then existing else 0)
           downloadedBytes := s
           status := "paused"
           attemptIndex := idx + 1
           totalAttempts := total
           currentURL := url
           failedURLs := failed
           allURLs := allURLs }] ∧
      (performDownload env url existing known idx total allURLs failed).failed = failed ∧
      (performDownload env url existing known idx total allURLs failed).result =
        some DlErr.paused) ∧
    (∀ (env : AttemptEnv) (url nm : String) (server : Int) (idx total : Int)
        (allURLs failed : List String) (resp : HttpResp) (s : Int),
      env.head = some ⟨nm, server⟩ → nm ≠ "" →
      (shouldDownload server env.existingSize).1 = true →
      env.get = some resp → (resp.status = 200 ∨ resp.status = 206) →
      env.copy = CopyResult.pausedA s →
      (attemptDownload env url idx total allURLs failed).result = some DlErr.paused ∧
      (attemptDownload env url idx total allURLs failed).failed = failed) ∧
    (∀ (u : String) (env : AttemptEnv) (rest : List (String × AttemptEnv))
        (i total : Int) (allURLs failed : List String) (lastErr : Option DlErr),
      u ≠ "" →
      (attemptDownload env u i total allURLs failed).result = some DlErr.paused →
      (downloadLoop total allURLs ((u, env) :: rest) i failed lastErr).result =
        some DlErr.paused ∧
      (downloadLoop total allURLs ((u, env) :: rest) i failed lastErr).failed =
        (attemptDownload env u i total allURLs failed).failed ∧
      (downloadLoop total allURLs ((u, env) :: rest) i failed lastErr).events =
        tryingEvent (i + 1) total u failed allURLs ::
          (attemptDownload env u i total allURLs failed).events) ∧
    (∀ (toolExists : Bool) (urls : List (String × AttemptEnv)) (ee : ExecEnv),
      (downloadTool toolExists urls).result = some DlErr.paused →
      (installRun true toolExists urls ee).err = none ∧
      (installRun true toolExists urls ee).events = (downloadTool toolExists urls).events) := by
  refine ⟨?_, ?_, ?_, ?_⟩
  · intro env resp s url existing known idx total allURLs failed hget hst hcopy
    rw [performDownload_paused_eq env resp s url existing known idx total allURLs failed
      hget hst hcopy]
    exact ⟨rfl, rfl, rfl⟩
  · intro env url nm server idx total allURLs failed resp s hhead hnm hsd1 hget hst hcopy
    have hperf := performDownload_paused_eq env resp s url
      (if (shouldDownload server env.existingSize).2 then 0 else env.existingSize)
      server idx total allURLs failed hget hst hcopy
    simp [attemptDownload, hhead, hnm, hsd1, hperf]
  · intro u env rest i total allURLs failed lastErr hu hp
    simp [downloadLoop, hu, hp]
  · intro toolExists urls ee h
    constructor <;> simp [installRun, h]

/-- C2 witness: a 206 resume paused at 30 of 100 bytes - one paused event,
no mirror failure, and Install returns success. -/
theorem paused_copy_loop_behavior_witness :
    (performDownload ⟨some ⟨"a.bin", 100⟩, none, 30, some ⟨206, 70⟩, CopyResult.pausedA 30, true⟩
        "u" 30 100 0 1 ["u"] []).failed = ([] : List String) ∧
    (performDownload ⟨some ⟨"a.bin", 100⟩, none, 30, some ⟨206, 70⟩, CopyResult.pausedA 30, true⟩
        "u" 30 100 0 1 ["u"] []).result = some DlErr.paused ∧
    (installRun true false
        [("u", ⟨some ⟨"a.bin", 100⟩, none, 30, some ⟨206, 70⟩, CopyResult.pausedA 30, true⟩)]
        ⟨true, some "f", true, "", true, true, true, true⟩).err = none := by
  refine ⟨?_, ?_, ?_⟩
  · exact (paused_copy_loop_behavior.1 _ ⟨206, 70⟩ 30 "u" 30 100 0 1 ["u"] []
      rfl (Or.inr rfl) rfl).2.1
  · exact (paused_copy_loop_behavior.1 _ ⟨206, 70⟩ 30 "u" 30 100 0 1 ["u"] []
      rfl (Or.inr rfl) rfl).2.2
  · exact (paused_copy_loop_behavior.2.2.2 false
      [("u", ⟨some ⟨"a.bin", 100⟩, none, 30, some ⟨206, 70⟩, CopyResult.pausedA 30, true⟩)]
      ⟨true, some "f", true, "", true, true, true, true⟩ (by decide)).1

/-- C9: when the tool's entry file already resolves in some candidate root,
Install (uncontended, with the exec check passing as it did before - tool
not executable, or the storage folder still probing executable) returns
success via the fast path: its events are exactly two "completed" events
(the fast-path one and Install's final one) and no network request is
made. -/
theorem install_fastpath_idempotent (fs : FileSys) (c : ToolCtx)
    (urls : List (String × AttemptEnv)) (ee : ExecEnv)
    (hexists : doesToolExist fs c = true)
    (hexec : ee.isExecutable = false ∨ (ee.storageFolder ≠ none ∧ ee.storageExecOK = true)) :
    (installRun true (doesToolExist fs c) urls ee).err = none ∧
    (installRun true (doesToolExist fs c) urls ee).network = 0 ∧
    (installRun true (doesToolExist fs c) urls ee).events.map DownloadProgress.status =
      ["completed", "completed"] := by
  rw [hexists]
  have hdl : downloadTool true urls =
      { events := [completedEvent], result := none, failed := [], network := 0 } := by
    simp [downloadTool]
  rcases hexec with h | ⟨h1, h2⟩
  · refine ⟨?_, ?_, ?_⟩ <;> simp [installRun, hdl, execCheck, h, completedEvent]
  · rcases hsf : ee.storageFolder with _ | f
    · exact absurd hsf h1
    · refine ⟨?_, ?_, ?_⟩ <;> simp [installRun, hdl, execCheck, hsf, h2, completedEvent]

/-- C9 witness: the fast path on a filesystem where the entry file exists
under the writable root. -/
theorem install_fastpath_idempotent_witness :
    doesToolExist [["w", "linux", "amd64", "t", "1.0", "bin"]]
      ⟨["w"], [], "linux", "amd64", "t", "1.0", ["bin"], []⟩ = true ∧
    (installRun true
      (doesToolExist [["w", "linux", "amd64", "t", "1.0", "bin"]]
        ⟨["w"], [], "linux", "amd64", "t", "1.0", ["bin"], []⟩)
      [("u", ⟨none, some "a.zip", 0, none, CopyResult.ok, true⟩)]
      ⟨false, none, false, "", false, false, false, false⟩).network = 0 := by
  refine ⟨by decide, ?_⟩
  exact (install_fastpath_idempotent [["w", "linux", "amd64", "t", "1.0", "bin"]]
    ⟨["w"], [], "linux", "amd64", "t", "1.0", ["bin"], []⟩
    [("u", ⟨none, some "a.zip", 0, none, CopyResult.ok, true⟩)]
    ⟨false, none, false, "", false, false, false, false⟩
    (by decide) (Or.inl rfl)).2.1

/-- Membership after removeAllFs. -/
theorem mem_removeAllFs {fs : FileSys} {d p : FPath} (h : p ∈ removeAllFs fs d) :
    p ∈ fs ∧ ¬(d <+: p) := by
  simpa [removeAllFs] using h

/-- Membership after removeFileFs. -/
theorem mem_removeFileFs {fs : FileSys} {f p : FPath} (h : p ∈ removeFileFs fs f) :
    p ∈ fs ∧ p ≠ f := by
  simpa [removeFileFs] using h

/-- Membership after renameFs: every file is the image of a source file. -/
theorem mem_renameFs {fs : FileSys} {src dst p : FPath} (h : p ∈ renameFs fs src dst) :
    ∃ q ∈ fs, p = (if src <+: q then dst ++ q.drop src.length else q) := by
  simp only [renameFs, List.mem_map] at h
  obtain ⟨q, hq, hpq⟩ := h
  exact ⟨q, hq, hpq.symm⟩

/-- After DownloadedTool.Uninstall, no file remains under the writable
version folder and neither sidecar remains. -/
theorem downloadedUninstall_clears (fs : FileSys) (c : ToolCtx) (busy : Bool)
    (u1 u2 : String) :
    ∀ p ∈ (downloadedUninstall fs c busy u1 u2).1,
      ¬(writableFolderOf c <+: p) ∧ p ≠ metaFilePath c ∧ p ≠ metaTmpFilePath c := by
  intro p hp
  have h4 := mem_removeFileFs (f := metaTmpFilePath c) hp
  have h3 := mem_removeFileFs (f := metaFilePath c) h4.1
  refine ⟨?_, h3.2, h4.2⟩
  intro hpre
  revert h3
  set fs1 := (baseUninstall fs c busy u1).1 with hfs1
  by_cases hd : dirExists fs1 (writableFolderOf c) = true
  · simp only [hd, if_pos]
    intro h3
    have h2 := mem_removeAllFs h3.1
    obtain ⟨q, hq, hpq⟩ := mem_renameFs h2.1
    by_cases hsq : writableFolderOf c <+: q
    · rw [if_pos hsq] at hpq
      exact h2.2 (hpq ▸ List.prefix_append _ _)
    · rw [if_neg hsq] at hpq
      exact hsq (hpq ▸ hpre)
  · intro h3
    simp only [Bool.not_eq_true] at hd
    have hcond : ¬(dirExists fs1 (writableFolderOf c) = true) := by
      rw [hd]; exact Bool.false_ne_true
    rw [if_neg hcond] at h3
    have hall : ∀ r ∈ fs1, ¬(writableFolderOf c <+: r) := by
      intro r hr
      have hh := List.any_eq_false.mp hd r hr
      simp at hh
      exact hh
    exact hall p h3.1 hpre

/-- C5: for every Uninstall call that returns without error, resolution of
the tool's entry under the writable root fails afterwards (the whole version
tree under the writable root is gone) and both metadata sidecars - the
per-version .toolmeta.json and its .tmp companion - are absent. -/
theorem uninstall_postcondition (fs : FileSys) (c : ToolCtx) (busy : Bool) (u1 u2 : String)
    (_hok : (downloadedUninstall fs c busy u1 u2).2 = none) :
    dirExists (downloadedUninstall fs c busy u1 u2).1 (writableFolderOf c) = false ∧
    fileInFs (downloadedUninstall fs c busy u1 u2).1 (writableFolderOf c ++ c.entry) = false ∧
    fileInFs (downloadedUninstall fs c busy u1 u2).1 (metaFilePath c) = false ∧
    fileInFs (downloadedUninstall fs c busy u1 u2).1 (metaTmpFilePath c) = false := by
  have key := downloadedUninstall_clears fs c busy u1 u2
  refine ⟨?_, ?_, ?_, ?_⟩
  · refine List.any_eq_false.mpr ?_
    intro p hp
    simpa using (key p hp).1
  · refine List.any_eq_false.mpr ?_
    intro p hp
    simp only [decide_eq_true_eq]
    intro hpf
    exact (key p hp).1 (hpf ▸ List.prefix_append _ _)
  · refine List.any_eq_false.mpr ?_
    intro p hp
    simpa using (key p hp).2.1
  · refine List.any_eq_false.mpr ?_
    intro p hp
    simpa using (key p hp).2.2

/-- C5 witness: uninstall on a concrete filesystem carrying the entry file,
both sidecars and an unrelated file. -/
theorem uninstall_postcondition_witness :
    (downloadedUninstall
      [["w", "linux", "amd64", "t", "1.0", "bin"],
       ["w", "linux", "amd64", "t", "1.0" ++ metaSuffix],
       ["w", "linux", "amd64", "t", "1.0" ++ metaSuffix ++ ".tmp"],
       ["other"]]
      ⟨["w"], [], "linux", "amd64", "t", "1.0", ["bin"], ["x"]⟩ false "u1" "u2").2 = none ∧
    fileInFs (downloadedUninstall
      [["w", "linux", "amd64", "t", "1.0", "bin"],
       ["w", "linux", "amd64", "t", "1.0" ++ metaSuffix],
       ["w", "linux", "amd64", "t", "1.0" ++ metaSuffix ++ ".tmp"],
       ["other"]]
      ⟨["w"], [], "linux", "amd64", "t", "1.0", ["bin"], ["x"]⟩ false "u1" "u2").1
      (metaFilePath ⟨["w"], [], "linux", "amd64", "t", "1.0", ["bin"], ["x"]⟩) = false ∧
    dirExists (downloadedUninstall
      [["w", "linux", "amd64", "t", "1.0", "bin"],
       ["w", "linux", "amd64", "t", "1.0" ++ metaSuffix],
       ["w", "linux", "amd64", "t", "1.0" ++ metaSuffix ++ ".tmp"],
       ["other"]]
      ⟨["w"], [], "linux", "amd64", "t", "1.0", ["bin"], ["x"]⟩ false "u1" "u2").1
      (writableFolderOf ⟨["w"], [], "linux", "amd64", "t", "1.0", ["bin"], ["x"]⟩) = false := by
  refine ⟨by decide, ?_, ?_⟩
  · exact (uninstall_postcondition
      [["w", "linux", "amd64", "t", "1.0", "bin"],
       ["w", "linux", "amd64", "t", "1.0" ++ metaSuffix],
       ["w", "linux", "amd64", "t", "1.0" ++ metaSuffix ++ ".tmp"],
       ["other"]]
      ⟨["w"], [], "linux", "amd64", "t", "1.0", ["bin"], ["x"]⟩ false "u1" "u2"
      (by decide)).2.2.1
  · exact (uninstall_postcondition
      [["w", "linux", "amd64", "t", "1.0", "bin"],
       ["w", "linux", "amd64", "t", "1.0" ++ metaSuffix],
       ["w", "linux", "amd64", "t", "1.0" ++ metaSuffix ++ ".tmp"],
       ["other"]]
      ⟨["w"], [], "linux", "amd64", "t", "1.0", ["bin"], ["x"]⟩ false "u1" "u2"
      (by decide)).1

/-- C8: the download filename is resolved with strict priority: when the
RFC 5987 filename* form yields a (percent-decoded, nonempty) name it wins;
otherwise a quoted filename form wins; otherwise an unquoted filename form
is used; and whenever the Content-Disposition header yields no name - or is
absent - the basename of the URL path is used. -/
theorem contentDisposition_priority :
    (∀ (cd : String) (n : List Char), extract5987 cd.toList = some n →
      parseContentDispositionFilename cd = String.mk n) ∧
    (∀ (cd : String) (n : List Char), extract5987 cd.toList = none →
      extractQuoted cd.toList = some n →
      parseContentDispositionFilename cd = String.mk n) ∧
    (∀ (cd : String) (n : List Char), extract5987 cd.toList = none →
      extractQuoted cd.toList = none → extractUnquoted cd.toList = some n →
      parseContentDispositionFilename cd = String.mk n) ∧
    (∀ (cd urlPath : String), parseContentDispositionFilename cd = "" →
      downloadFileNameFor (some cd) urlPath = pathBase urlPath) ∧
    (∀ urlPath : String, downloadFileNameFor none urlPath = pathBase urlPath) := by
  refine ⟨?_, ?_, ?_, ?_, ?_⟩
  · intro cd n h
    have h' : extract5987 cd.data = some n := h
    simp [parseContentDispositionFilename, h']
  · intro cd n h1 h2
    have h1' : extract5987 cd.data = none := h1
    have h2' : extractQuoted cd.data = some n := h2
    simp [parseContentDispositionFilename, h1', h2']
  · intro cd n h1 h2 h3
    have h1' : extract5987 cd.data = none := h1
    have h2' : extractQuoted cd.data = none := h2
    have h3' : extractUnquoted cd.data = some n := h3
    simp [parseContentDispositionFilename, h1', h2', h3']
  · intro cd urlPath h
    simp [downloadFileNameFor, h]
  · intro urlPath
    simp [downloadFileNameFor]

/-- C8 witness: a header carrying all three forms resolves to the decoded
RFC 5987 name; a header with quoted and unquoted forms resolves to the
quoted one; a header yielding no name falls back to the URL basename. -/
theorem contentDisposition_priority_witness :
    parseContentDispositionFilename
      ("attachment; filename*=UTF-8" ++ String.mk twoQuotes ++
        "a%20b.zip; filename=\"c.zip\"") = String.mk "a b.zip".toList ∧
    parseContentDispositionFilename "attachment; filename=\"c.zip\"; x=filename=d.zip" =
      String.mk "c.zip".toList ∧
    parseContentDispositionFilename "attachment; filename=d.zip ; x=1" =
      String.mk "d.zip".toList ∧
    downloadFileNameFor (some "inline") "/dir/f.bin" = pathBase "/dir/f.bin" ∧
    downloadFileNameFor none "/dir/f.bin" = pathBase "/dir/f.bin" := by
  refine ⟨?_, ?_, ?_, ?_, ?_⟩
  · exact contentDisposition_priority.1
      ("attachment; filename*=UTF-8" ++ String.mk twoQuotes ++ "a%20b.zip; filename=\"c.zip\"")
      "a b.zip".toList (by decide)
  · exact contentDisposition_priority.2.1
      "attachment; filename=\"c.zip\"; x=filename=d.zip" "c.zip".toList
      (by decide) (by decide)
  · exact contentDisposition_priority.2.2.1
      "attachment; filename=d.zip ; x=1" "d.zip".toList
      (by decide) (by decide) (by decide)
  · exact contentDisposition_priority.2.2.2.1 "inline" "/dir/f.bin" (by decide)
  · exact contentDisposition_priority.2.2.2.2 "/dir/f.bin"

end RemoteTools
